import Mathlib

/-!
Verification development for the dcrd peer-to-peer wire subset:
the versioned network-address record and addrv2 message codec
(src/wire/netaddressv2.go), the mixing message set
(src/wire/msgmixpr.go, msgmixke/ct/sr/dc/cm), and the address
classification and group-key logic (src/addrmgr/network.go).

Byte streams are lists of naturals (each byte < 256).  Decoders take the
input byte list and return the decoded value together with the remaining
bytes, or an error; encoders return the produced bytes or an error.  The
element codec itself (dcrd wire/common.go: readElement/writeElement,
ReadVarInt/WriteVarInt) is not among the provided sources and is modelled
from the spec, as noted on each such definition.
-/

set_option maxRecDepth 4000

namespace Dcrd

/-- Error kinds surfaced by the codec, matching the error identifiers of the
Go source (`ErrMsgInvalidForPVer`, `ErrTooFewAddrs`, `ErrTooManyAddrs`,
`ErrInvalidMsg`) plus a single `eof` kind standing for the I/O class errors
(`io.EOF` / truncated input). -/
inductive Err where
  | msgInvalidForPVer
  | tooFewAddrs
  | tooManyAddrs
  | invalidMsg
  | eof
deriving DecidableEq, Repr

/-- Modelled from the spec: fixed-width integers are encoded little-endian,
exact width (spec 4.1).  `natToLE w x` is the `w`-byte little-endian
encoding of `x` (mod 256^w). -/
def natToLE : Nat → Nat → List Nat
  | 0, _ => []
  | w + 1, x => x % 256 :: natToLE w (x / 256)

/-- Value of a little-endian byte list. -/
def bytesToNatLE : List Nat → Nat
  | [] => 0
  | b :: bs => b + 256 * bytesToNatLE bs

theorem natToLE_length (w x : Nat) : (natToLE w x).length = w := by
  induction w generalizing x with
  | zero => rfl
  | succ w ih => simp [natToLE, ih]

theorem bytesToNatLE_natToLE (w x : Nat) :
    bytesToNatLE (natToLE w x) = x % 256 ^ w := by
  induction w generalizing x with
  | zero => simp [natToLE, bytesToNatLE, Nat.mod_one]
  | succ w ih =>
    simp only [natToLE, bytesToNatLE, ih]
    rw [pow_succ, mul_comm (256 ^ w) 256, Nat.mod_mul]

theorem bytesToNatLE_natToLE_of_lt {w x : Nat} (h : x < 256 ^ w) :
    bytesToNatLE (natToLE w x) = x := by
  rw [bytesToNatLE_natToLE, Nat.mod_eq_of_lt h]

/-- Read exactly `n` bytes, failing with `eof` when fewer are available. -/
def readBytesE (n : Nat) (bs : List Nat) : Except Err (List Nat × List Nat) :=
  if n ≤ bs.length then .ok (bs.take n, bs.drop n) else .error .eof

theorem readBytesE_append (xs rest : List Nat) :
    readBytesE xs.length (xs ++ rest) = .ok (xs, rest) := by
  unfold readBytesE
  rw [if_pos (by simp)]
  simp

theorem readBytesE_append_of_len {n : Nat} (xs rest : List Nat) (h : xs.length = n) :
    readBytesE n (xs ++ rest) = .ok (xs, rest) := by
  subst h; exact readBytesE_append xs rest

/-- Read a `w`-byte little-endian unsigned integer. -/
def readNatLE (w : Nat) (bs : List Nat) : Except Err (Nat × List Nat) :=
  match readBytesE w bs with
  | .error e => .error e
  | .ok (v, rest) => .ok (bytesToNatLE v, rest)

theorem readNatLE_natToLE {w x : Nat} (rest : List Nat) (h : x < 256 ^ w) :
    readNatLE w (natToLE w x ++ rest) = .ok (x, rest) := by
  unfold readNatLE
  rw [readBytesE_append_of_len _ _ (natToLE_length w x)]
  dsimp only
  rw [bytesToNatLE_natToLE_of_lt h]

/-- Modelled from the spec: timestamps and other signed 64-bit fields are
encoded as little-endian two's-complement (spec 3 / 4.1). -/
def intToLE8 (x : Int) : List Nat := natToLE 8 (x % (2 ^ 64 : Int)).toNat

/-- Read a signed 64-bit little-endian integer (two's complement). -/
def readInt64 (bs : List Nat) : Except Err (Int × List Nat) :=
  match readNatLE 8 bs with
  | .error e => .error e
  | .ok (n, rest) =>
      .ok (if n < 2 ^ 63 then (n : Int) else (n : Int) - 2 ^ 64, rest)

theorem readInt64_intToLE8 {x : Int} (rest : List Nat)
    (h1 : -(2 ^ 63) ≤ x) (h2 : x < 2 ^ 63) :
    readInt64 (intToLE8 x ++ rest) = .ok (x, rest) := by
  unfold readInt64 intToLE8
  have hlt : (x % (2 ^ 64 : Int)).toNat < 256 ^ 8 := by
    have h0 : (0 : Int) < 2 ^ 64 := by positivity
    have := Int.emod_lt_of_pos x h0
    omega
  rw [readNatLE_natToLE rest hlt]
  dsimp only
  have hmod : (x % (2 ^ 64 : Int)) = if 0 ≤ x then x else x + 2 ^ 64 := by
    split <;> omega
  by_cases h0 : 0 ≤ x
  · rw [hmod, if_pos h0]
    have hx : x.toNat < 2 ^ 63 := by omega
    rw [if_pos hx]
    simp only [Except.ok.injEq, Prod.mk.injEq, and_true]
    omega
  · rw [hmod, if_neg h0]
    have hge : ¬ ((x + 2 ^ 64).toNat < 2 ^ 63) := by omega
    rw [if_neg hge]
    simp only [Except.ok.injEq, Prod.mk.injEq, and_true]
    omega

/-- Modelled from the spec: the compact-size variable-length integer
(spec 4.1): 1 byte for values < 0xFD; marker 0xFD plus 2 bytes up to
0xFFFF; marker 0xFE plus 4 bytes for larger 32-bit values; marker 0xFF
plus 8 bytes otherwise.  The encoder always chooses the minimal form. -/
def putVarInt (n : Nat) : List Nat :=
  if n < 253 then [n]
  else if n ≤ 65535 then 253 :: natToLE 2 n
  else if n ≤ 4294967295 then 254 :: natToLE 4 n
  else 255 :: natToLE 8 n

/-- Modelled from the spec: compact-size decoding; any form is accepted
(spec 4.1: no canonicalization requirement is enforced on decode). -/
def readVarInt (bs : List Nat) : Except Err (Nat × List Nat) :=
  match bs with
  | [] => .error .eof
  | d :: rest =>
      if d = 253 then readNatLE 2 rest
      else if d = 254 then readNatLE 4 rest
      else if d = 255 then readNatLE 8 rest
      else .ok (d, rest)

theorem readVarInt_putVarInt {n : Nat} (rest : List Nat) (h : n < 2 ^ 64) :
    readVarInt (putVarInt n ++ rest) = .ok (n, rest) := by
  unfold putVarInt
  by_cases h1 : n < 253
  · rw [if_pos h1]
    simp only [List.cons_append, List.nil_append, readVarInt]
    rw [if_neg (by omega), if_neg (by omega), if_neg (by omega)]
  · rw [if_neg h1]
    by_cases h2 : n ≤ 65535
    · rw [if_pos h2]
      simp only [List.cons_append, readVarInt, reduceIte]
      exact readNatLE_natToLE rest (by omega)
    · rw [if_neg h2]
      by_cases h3 : n ≤ 4294967295
      · rw [if_pos h3]
        simp only [List.cons_append, readVarInt, reduceIte]
        exact readNatLE_natToLE rest (by omega)
      · rw [if_neg h3]
        simp only [List.cons_append, readVarInt, reduceIte]
        exact readNatLE_natToLE rest (by omega)

/-- Sequencing for decoders: feed the remaining bytes of a successful read
into the continuation. -/
def rbind (x : Except Err (α × List Nat))
    (f : α → List Nat → Except Err (β × List Nat)) : Except Err (β × List Nat) :=
  match x with
  | .error e => .error e
  | .ok (a, rest) => f a rest

@[simp] theorem rbind_ok (a : α) (r : List Nat)
    (f : α → List Nat → Except Err (β × List Nat)) :
    rbind (.ok (a, r)) f = f a r := rfl

@[simp] theorem rbind_error (e : Err)
    (f : α → List Nat → Except Err (β × List Nat)) :
    rbind (.error e) f = .error e := rfl

/-- Read `n` consecutive elements with the element reader `f`. -/
def readList (f : List Nat → Except Err (α × List Nat)) :
    Nat → List Nat → Except Err (List α × List Nat)
  | 0, bs => .ok ([], bs)
  | n + 1, bs =>
      rbind (f bs) fun a bs1 =>
      rbind (readList f n bs1) fun as bs2 =>
      .ok (a :: as, bs2)

/-- Concatenate the encodings of the elements of a list (total encoder). -/
def concatMap' (f : α → List β) : List α → List β
  | [] => []
  | a :: l => f a ++ concatMap' f l

theorem readList_concatMap (f : α → List Nat)
    (g : List Nat → Except Err (α × List Nat)) (l : List α)
    (h : ∀ x ∈ l, ∀ r, g (f x ++ r) = .ok (x, r)) :
    ∀ r, readList g l.length (concatMap' f l ++ r) = .ok (l, r) := by
  induction l with
  | nil => intro r; simp [readList, concatMap']
  | cons a l ih =>
    intro r
    simp only [List.length_cons, readList, concatMap', List.append_assoc]
    rw [h a (by simp), rbind_ok, ih (fun x hx => h x (by simp [hx])), rbind_ok]

/-- Encode each element of a list and concatenate the results. -/
def encodeListE (f : α → Except Err (List Nat)) : List α → Except Err (List Nat)
  | [] => .ok []
  | a :: l =>
      match f a with
      | .error e => .error e
      | .ok b =>
          match encodeListE f l with
          | .error e => .error e
          | .ok bs => .ok (b ++ bs)

theorem readList_encodeListE (f : α → Except Err (List Nat))
    (g : List Nat → Except Err (α × List Nat)) (l : List α)
    (h : ∀ x ∈ l, ∃ bx, f x = .ok bx ∧ ∀ r, g (bx ++ r) = .ok (x, r)) :
    ∃ bs, encodeListE f l = .ok bs ∧
      ∀ r, readList g l.length (bs ++ r) = .ok (l, r) := by
  induction l with
  | nil => exact ⟨[], rfl, fun r => by simp [readList]⟩
  | cons a l ih =>
    obtain ⟨ba, hfa, hga⟩ := h a (by simp)
    obtain ⟨bs, hfl, hgl⟩ := ih (fun x hx => h x (by simp [hx]))
    refine ⟨ba ++ bs, ?_, ?_⟩
    · simp [encodeListE, hfa, hfl]
    · intro r
      simp only [List.length_cons, readList, List.append_assoc]
      rw [hga, rbind_ok, hgl, rbind_ok]

/-! ## Protocol version thresholds

The constants live in dcrd wire/protocol.go, which is not among the
provided sources.  `AddrV2Version` and `RelayTORv3Version` are fixed by
the tests in src/wire/netaddressv2.go (protocol versions 10 and 11).
`MixVersion` is modelled from the spec as an opaque caller-supplied
threshold (spec 6); only comparisons against it matter, so its numeric
value is immaterial. -/

def AddrV2Version : Nat := 10

def RelayTORv3Version : Nat := 11

def MixVersion : Nat := 12

/-- Maximum number of addresses in a single addrv2 message
(src/wire/netaddressv2.go `MaxAddrPerV2Msg`). -/
def MaxAddrPerV2Msg : Nat := 1000

/-! ## Network address record (src/wire/netaddressv2.go) -/

/-- `NetAddressV2` (src/wire/netaddressv2.go).  The Go field `Type` (a
`NetAddressType` = uint8: 0 unknown, 1 IPv4, 2 IPv6, 3 TORv3) is named
`addrType` here because `Type` is reserved in Lean.  `Timestamp` is the
Unix-seconds value of the Go `time.Time`; `IP` is the raw byte slice. -/
structure NetAddressV2 where
  addrType : Nat
  IP : List Nat
  Port : Nat
  Timestamp : Int
  Services : Nat
deriving DecidableEq, Repr

/-- Zero-pad (on the right) or truncate `bs` to exactly `n` bytes; the
effect of Go `copy(ip[:], src)` into a fresh `n`-byte array. -/
def padTruncTo (n : Nat) (bs : List Nat) : List Nat :=
  (bs ++ List.replicate n 0).take n

/-- `writeNetAddressV2` (src/wire/netaddressv2.go lines 171-218).  Field
order: timestamp (int64 LE), services (uint64 LE), type (1 byte), address
bytes, port (uint16 LE).  The IPv4 branch copies the slice into a fresh
4-byte array (zero padding / truncation); the IPv6 branch copies
`net.IP(ip).To16()` into a 16-byte array, so a 16-byte slice passes
through, a 4-byte slice becomes the IPv4-mapped IPv6 form, and any other
length (To16 returns nil) leaves 16 zero bytes; the TORv3 branch (only at
or above `RelayTORv3Version`) writes the slice only when it is exactly 32
bytes and 32 zero bytes otherwise.  Any other type, or TORv3 below the
threshold, is `ErrInvalidMsg`.  (In Go the header fields are streamed to
the writer before the type dispatch can fail; the `Except` model returns
only the error in that case.) -/
def writeNetAddressV2 (pver : Nat) (na : NetAddressV2) : Except Err (List Nat) :=
  let hdr := intToLE8 na.Timestamp ++ natToLE 8 na.Services ++ [na.addrType % 256]
  if na.addrType = 1 then
    .ok (hdr ++ padTruncTo 4 na.IP ++ natToLE 2 na.Port)
  else if na.addrType = 2 then
    let field :=
      if na.IP.length = 16 then na.IP
      else if na.IP.length = 4 then
        List.replicate 10 0 ++ [255, 255] ++ na.IP
      else List.replicate 16 0
    .ok (hdr ++ field ++ natToLE 2 na.Port)
  else if na.addrType = 3 ∧ RelayTORv3Version ≤ pver then
    let field := if na.IP.length = 32 then na.IP else List.replicate 32 0
    .ok (hdr ++ field ++ natToLE 2 na.Port)
  else .error .invalidMsg

/-- `readNetAddressV2` (src/wire/netaddressv2.go lines 117-167).  Reads
timestamp, services, type, then the address bytes with width selected by
the type (TORv3 only at or above `RelayTORv3Version`; any other type is
`ErrInvalidMsg`), then the port. -/
def readNetAddressV2 (pver : Nat) (bs : List Nat) :
    Except Err (NetAddressV2 × List Nat) :=
  rbind (readInt64 bs) fun ts bs =>
  rbind (readNatLE 8 bs) fun svc bs =>
  rbind (readNatLE 1 bs) fun t bs =>
  rbind (if t = 1 then readBytesE 4 bs
         else if t = 2 then readBytesE 16 bs
         else if t = 3 ∧ RelayTORv3Version ≤ pver then readBytesE 32 bs
         else .error .invalidMsg) fun ip bs =>
  rbind (readNatLE 2 bs) fun port bs =>
  .ok (⟨t, ip, port, ts, svc⟩, bs)

/-- Field-width invariants of a network address record at protocol version
`pver` (spec 3): the type is IPv4/IPv6/TORv3 with the address bytes of the
matching fixed width (TORv3 requires the Tor-v3 relay threshold), and the
scalar fields fit their wire widths. -/
def NetAddressV2.wf (pver : Nat) (na : NetAddressV2) : Prop :=
  (-(2 ^ 63) ≤ na.Timestamp ∧ na.Timestamp < 2 ^ 63) ∧
  na.Services < 2 ^ 64 ∧ na.Port < 2 ^ 16 ∧
  (∀ b ∈ na.IP, b < 256) ∧
  ((na.addrType = 1 ∧ na.IP.length = 4) ∨
   (na.addrType = 2 ∧ na.IP.length = 16) ∨
   (na.addrType = 3 ∧ na.IP.length = 32 ∧ RelayTORv3Version ≤ pver))

instance (pver : Nat) (na : NetAddressV2) : Decidable (na.wf pver) := by
  unfold NetAddressV2.wf; infer_instance

theorem padTruncTo_of_len {n : Nat} {bs : List Nat} (h : bs.length = n) :
    padTruncTo n bs = bs := by
  unfold padTruncTo
  rw [← h, List.take_left]

/-- A well-formed record encodes successfully and decodes back to itself
from any continuation of the produced bytes. -/
theorem readNetAddressV2_roundtrip (pver : Nat) (na : NetAddressV2)
    (h : na.wf pver) :
    ∃ bs, writeNetAddressV2 pver na = .ok bs ∧
      ∀ r, readNetAddressV2 pver (bs ++ r) = .ok (na, r) := by
  obtain ⟨⟨hts1, hts2⟩, hsvc, hport, _hbytes, htype⟩ := h
  obtain ⟨na_t, na_ip, na_port, na_ts, na_svc⟩ := na
  simp only at hts1 hts2 hsvc hport htype
  have step : ∀ fieldBytes r, fieldBytes.length = (if na_t = 1 then 4 else if na_t = 2 then 16 else 32) →
      readNetAddressV2 pver
        ((intToLE8 na_ts ++ natToLE 8 na_svc ++ [na_t % 256]) ++ fieldBytes ++ natToLE 2 na_port ++ r) =
      rbind (if na_t = 1 then readBytesE 4 (fieldBytes ++ natToLE 2 na_port ++ r)
             else if na_t = 2 then readBytesE 16 (fieldBytes ++ natToLE 2 na_port ++ r)
             else if na_t = 3 ∧ RelayTORv3Version ≤ pver then readBytesE 32 (fieldBytes ++ natToLE 2 na_port ++ r)
             else .error .invalidMsg) (fun ip bs =>
        rbind (readNatLE 2 bs) fun port bs => .ok (⟨na_t, ip, port, na_ts, na_svc⟩, bs)) := by
    intro fieldBytes r _hlen
    unfold readNetAddressV2
    have hmod : na_t % 256 = na_t := by
      rcases htype with ⟨h1, _⟩ | ⟨h1, _⟩ | ⟨h1, _⟩ <;> simp [h1]
    simp only [List.append_assoc, List.cons_append, List.nil_append]
    rw [readInt64_intToLE8 _ hts1 hts2, rbind_ok,
      readNatLE_natToLE _ (by simpa using hsvc), rbind_ok]
    have h1 : readNatLE 1 (na_t % 256 :: (fieldBytes ++ (natToLE 2 na_port ++ r))) =
        .ok (na_t, fieldBytes ++ (natToLE 2 na_port ++ r)) := by
      have : na_t % 256 :: (fieldBytes ++ (natToLE 2 na_port ++ r)) =
          [na_t % 256] ++ (fieldBytes ++ (natToLE 2 na_port ++ r)) := rfl
      rw [this]
      have := readNatLE_natToLE (w := 1) (x := na_t)
        (fieldBytes ++ (natToLE 2 na_port ++ r)) (by
          rcases htype with ⟨h1, _⟩ | ⟨h1, _⟩ | ⟨h1, _⟩ <;> simp [h1])
      simpa [natToLE, hmod] using this
    rw [h1, rbind_ok]
  rcases htype with ⟨h1, hlen⟩ | ⟨h1, hlen⟩ | ⟨h1, hlen, hpv⟩
  · -- IPv4
    subst h1
    refine ⟨(intToLE8 na_ts ++ natToLE 8 na_svc ++ [1 % 256]) ++ na_ip ++ natToLE 2 na_port,
      ?_, ?_⟩
    · simp [writeNetAddressV2, padTruncTo_of_len hlen]
    · intro r
      have hs := step na_ip r (by simp [hlen])
      simp only [List.append_assoc] at hs ⊢
      rw [hs, if_pos trivial]
      rw [readBytesE_append_of_len _ _ hlen, rbind_ok,
        readNatLE_natToLE _ (by omega), rbind_ok]
  · -- IPv6
    subst h1
    refine ⟨(intToLE8 na_ts ++ natToLE 8 na_svc ++ [2 % 256]) ++ na_ip ++ natToLE 2 na_port,
      ?_, ?_⟩
    · simp [writeNetAddressV2, hlen]
    · intro r
      have hs := step na_ip r (by simp [hlen])
      simp only [List.append_assoc] at hs ⊢
      rw [hs, if_neg (by omega), if_pos trivial]
      rw [readBytesE_append_of_len _ _ hlen, rbind_ok,
        readNatLE_natToLE _ (by omega), rbind_ok]
  · -- TORv3
    subst h1
    refine ⟨(intToLE8 na_ts ++ natToLE 8 na_svc ++ [3 % 256]) ++ na_ip ++ natToLE 2 na_port,
      ?_, ?_⟩
    · simp [writeNetAddressV2, hlen, hpv]
    · intro r
      have hs := step na_ip r (by simp [hlen])
      simp only [List.append_assoc] at hs ⊢
      rw [hs, if_neg (by omega), if_neg (by omega), if_pos ⟨trivial, hpv⟩]
      rw [readBytesE_append_of_len _ _ hlen, rbind_ok,
        readNatLE_natToLE _ (by omega), rbind_ok]

/-! ## The addrv2 message (src/wire/netaddressv2.go) -/

/-- `MsgAddrV2` (src/wire/netaddressv2.go): an ordered list of network
address records. -/
structure MsgAddrV2 where
  AddrList : List NetAddressV2
deriving DecidableEq, Repr

/-- `MsgAddrV2.BtcDecode` (src/wire/netaddressv2.go lines 248-287): check
the protocol version first, then read the compact-size count, reject a
count of 0 (`ErrTooFewAddrs`) and a count above 1000 (`ErrTooManyAddrs`)
before reading any record, then read exactly `count` records.  (The Go
loop appends each record through `AddAddress`, whose capacity check can
never fire since `count ≤ MaxAddrPerV2Msg`.) -/
def MsgAddrV2.BtcDecode (pver : Nat) (bs : List Nat) :
    Except Err (MsgAddrV2 × List Nat) :=
  if pver < AddrV2Version then .error .msgInvalidForPVer
  else
    rbind (readVarInt bs) fun count bs =>
    if count = 0 then .error .tooFewAddrs
    else if MaxAddrPerV2Msg < count then .error .tooManyAddrs
    else
      rbind (readList (readNetAddressV2 pver) count bs) fun addrs bs =>
      .ok (⟨addrs⟩, bs)

/-- `MsgAddrV2.BtcEncode` (src/wire/netaddressv2.go lines 291-324): check
the protocol version first, then reject a list with more than 1000
entries (`ErrTooManyAddrs`) or an empty list (`ErrTooFewAddrs`), then
write the compact-size count followed by each record. -/
def MsgAddrV2.BtcEncode (pver : Nat) (msg : MsgAddrV2) : Except Err (List Nat) :=
  if pver < AddrV2Version then .error .msgInvalidForPVer
  else
    let count := msg.AddrList.length
    if MaxAddrPerV2Msg < count then .error .tooManyAddrs
    else if count = 0 then .error .tooFewAddrs
    else
      match encodeListE (writeNetAddressV2 pver) msg.AddrList with
      | .error e => .error e
      | .ok body => .ok (putVarInt count ++ body)

/-- `maxNetAddressPayloadV2` (src/wire/netaddressv2.go lines 222-244):
8 (timestamp) + 8 (services) + 1 (type) + 16 or 32 (max address) +
2 (port). -/
def maxNetAddressPayloadV2 (pver : Nat) : Nat :=
  if pver < RelayTORv3Version then 8 + 8 + 1 + 16 + 2
  else 8 + 8 + 1 + 32 + 2

/-- `VarIntSerializeSize` of dcrd wire/common.go, modelled from the spec's
compact-size encoding widths (spec 4.1). -/
def VarIntSerializeSize (n : Nat) : Nat :=
  if n < 253 then 1 else if n ≤ 65535 then 3 else if n ≤ 4294967295 then 5 else 9

/-- `MsgAddrV2.MaxPayloadLength` (src/wire/netaddressv2.go lines 334-343):
0 below `AddrV2Version`, otherwise the count size plus 1000 times the
per-record maximum. -/
def MsgAddrV2.MaxPayloadLength (pver : Nat) : Nat :=
  if pver < AddrV2Version then 0
  else VarIntSerializeSize MaxAddrPerV2Msg + MaxAddrPerV2Msg * maxNetAddressPayloadV2 pver

/-- A well-formed addrv2 message at `pver` encodes successfully and
decodes back to itself, consuming exactly the encoded bytes. -/
theorem msgAddrV2_roundtrip (pver : Nat) (msg : MsgAddrV2)
    (hp : AddrV2Version ≤ pver)
    (h1 : 1 ≤ msg.AddrList.length) (h2 : msg.AddrList.length ≤ MaxAddrPerV2Msg)
    (hwf : ∀ na ∈ msg.AddrList, na.wf pver) :
    ∃ bs, MsgAddrV2.BtcEncode pver msg = .ok bs ∧
      MsgAddrV2.BtcDecode pver bs = .ok (msg, []) := by
  obtain ⟨bs, hWrite, hRead⟩ := readList_encodeListE (writeNetAddressV2 pver)
    (readNetAddressV2 pver) msg.AddrList
    (fun na hna => readNetAddressV2_roundtrip pver na (hwf na hna))
  refine ⟨putVarInt msg.AddrList.length ++ bs, ?_, ?_⟩
  · unfold MsgAddrV2.BtcEncode
    rw [if_neg (by omega)]
    simp only [hWrite]
    rw [if_neg (by omega), if_neg (by omega)]
  · unfold MsgAddrV2.BtcDecode
    rw [if_neg (by omega)]
    rw [readVarInt_putVarInt bs (by unfold MaxAddrPerV2Msg at h2; omega), rbind_ok]
    rw [if_neg (by omega), if_neg (by omega)]
    have := hRead []
    rw [List.append_nil] at this
    rw [this, rbind_ok]

/-! ## Element codec helpers used by the mixing messages

dcrd wire/common.go (readElements/writeElements and their per-type
handling) is not among the provided sources; the per-type wire forms
below are modelled from the spec (spec 4.1): fixed-width integers and
byte arrays little-endian at exact width, variable-length byte slices and
composite lists prefixed with a compact-size count, booleans as a single
byte with any nonzero decoded byte accepted as true. -/

/-- Modelled from the spec: variable-length byte slice, compact-size
length prefix then the raw bytes (spec 4.1). -/
def putVarBytes (bs : List Nat) : List Nat := putVarInt bs.length ++ bs

/-- Read a compact-size-prefixed byte slice. -/
def readVarBytes (bs : List Nat) : Except Err (List Nat × List Nat) :=
  rbind (readVarInt bs) fun n bs => readBytesE n bs

theorem readVarBytes_putVarBytes (xs rest : List Nat) (h : xs.length < 2 ^ 64) :
    readVarBytes (putVarBytes xs ++ rest) = .ok (xs, rest) := by
  unfold readVarBytes putVarBytes
  rw [List.append_assoc, readVarInt_putVarInt _ h, rbind_ok, readBytesE_append]

/-- Modelled from the spec: a boolean encodes as one byte, 0 or 1
(spec 4.1). -/
def putBool (b : Bool) : List Nat := [if b then 1 else 0]

/-- Modelled from the spec: any nonzero decoded byte is accepted as true
(spec 4.1). -/
def readBool (bs : List Nat) : Except Err (Bool × List Nat) :=
  rbind (readBytesE 1 bs) fun v rest =>
  .ok (decide (v.headD 0 ≠ 0), rest)

theorem readBool_putBool (b : Bool) (rest : List Nat) :
    readBool (putBool b ++ rest) = .ok (b, rest) := by
  have h0 := readBytesE_append_of_len (n := 1) [0] rest rfl
  have h1 := readBytesE_append_of_len (n := 1) [1] rest rfl
  simp only [List.cons_append, List.nil_append] at h0 h1
  cases b <;> simp [readBool, putBool, h0, h1]

/-! ## Mixing message payloads: OutPoint and TxOut

`OutPoint` and `TxOut` (dcrd wire/msgtx.go) are referenced by
src/wire/msgmixpr.go but their definitions are not among the provided
sources. -/

/-- Modelled from the spec: an "unspent-output reference" committed to the
mix (spec 3, `PairRequest`).  The spec gives no field list; the standard
outpoint of this codebase is used: a 32-byte transaction hash, a 32-bit
output index and a signed one-byte tree. -/
structure OutPoint where
  Hash : List Nat
  Index : Nat
  Tree : Int
deriving DecidableEq, Repr

def writeOutPoint (o : OutPoint) : List Nat :=
  o.Hash ++ natToLE 4 o.Index ++ natToLE 1 (o.Tree % (2 ^ 8 : Int)).toNat

def readOutPoint (bs : List Nat) : Except Err (OutPoint × List Nat) :=
  rbind (readBytesE 32 bs) fun h bs =>
  rbind (readNatLE 4 bs) fun idx bs =>
  rbind (readNatLE 1 bs) fun t bs =>
  .ok (⟨h, idx, if t < 2 ^ 7 then (t : Int) else (t : Int) - 2 ^ 8⟩, bs)

/-- Field-width invariants of an outpoint. -/
def OutPoint.wf (o : OutPoint) : Prop :=
  o.Hash.length = 32 ∧ (∀ b ∈ o.Hash, b < 256) ∧ o.Index < 2 ^ 32 ∧
  -(2 ^ 7) ≤ o.Tree ∧ o.Tree < 2 ^ 7

instance (o : OutPoint) : Decidable o.wf := by
  unfold OutPoint.wf; infer_instance

theorem readOutPoint_writeOutPoint (o : OutPoint) (ho : o.wf) (rest : List Nat) :
    readOutPoint (writeOutPoint o ++ rest) = .ok (o, rest) := by
  obtain ⟨hlen, _, hidx, ht1, ht2⟩ := ho
  obtain ⟨oh, oi, ot⟩ := o
  simp only at hlen hidx ht1 ht2
  unfold readOutPoint writeOutPoint
  simp only [List.append_assoc]
  rw [readBytesE_append_of_len _ _ hlen, rbind_ok,
    readNatLE_natToLE _ (by omega), rbind_ok]
  have htmod : (ot % (2 ^ 8 : Int)).toNat < 256 ^ 1 := by
    have : (0 : Int) < 2 ^ 8 := by positivity
    have := Int.emod_lt_of_pos ot this
    omega
  rw [readNatLE_natToLE _ htmod, rbind_ok]
  have : (if (ot % (2 ^ 8 : Int)).toNat < 2 ^ 7
      then ((ot % (2 ^ 8 : Int)).toNat : Int)
      else ((ot % (2 ^ 8 : Int)).toNat : Int) - 2 ^ 8) = ot := by
    split <;> omega
  rw [this]

/-- Modelled from the spec: the "change output description" of a
`PairRequest` (spec 3).  The spec gives no field list; the standard
transaction output of this codebase is used: a signed 64-bit value, a
16-bit script version and a variable-length script. -/
structure TxOut where
  Value : Int
  Version : Nat
  PkScript : List Nat
deriving DecidableEq, Repr

def writeTxOut (t : TxOut) : List Nat :=
  intToLE8 t.Value ++ natToLE 2 t.Version ++ putVarBytes t.PkScript

def readTxOut (bs : List Nat) : Except Err (TxOut × List Nat) :=
  rbind (readInt64 bs) fun v bs =>
  rbind (readNatLE 2 bs) fun ver bs =>
  rbind (readVarBytes bs) fun s bs =>
  .ok (⟨v, ver, s⟩, bs)

/-- Field-width invariants of a transaction output. -/
def TxOut.wf (t : TxOut) : Prop :=
  -(2 ^ 63) ≤ t.Value ∧ t.Value < 2 ^ 63 ∧ t.Version < 2 ^ 16 ∧
  t.PkScript.length < 2 ^ 64 ∧ ∀ b ∈ t.PkScript, b < 256

instance (t : TxOut) : Decidable t.wf := by
  unfold TxOut.wf; infer_instance

theorem readTxOut_writeTxOut (t : TxOut) (ht : t.wf) (rest : List Nat) :
    readTxOut (writeTxOut t ++ rest) = .ok (t, rest) := by
  obtain ⟨hv1, hv2, hver, hs, _⟩ := ht
  obtain ⟨tv, tver, tscript⟩ := t
  simp only at hv1 hv2 hver hs
  unfold readTxOut writeTxOut
  simp only [List.append_assoc]
  rw [readInt64_intToLE8 _ hv1 hv2, rbind_ok,
    readNatLE_natToLE _ (by omega), rbind_ok,
    readVarBytes_putVarBytes _ _ hs, rbind_ok]

/-! ## Mixing message set (src/wire/msgmixpr.go, msgmixke (src/unnamed/part_001),
msgmixct.go, msgmixsr.go, msgmixdc.go, msgmixcm (src/unnamed/part_002)) -/

/-- `MsgMixPR` (src/wire/msgmixpr.go).  `ScriptClass` is a Go string,
modelled as its byte list. -/
structure MsgMixPR where
  Signature : List Nat
  Identity : List Nat
  Amount : Int
  ScriptClass : List Nat
  TxVersion : Nat
  LockTime : Nat
  Expiry : Nat
  MessageCount : Nat
  UTXOs : List OutPoint
  Change : TxOut
deriving DecidableEq, Repr

/-- `MsgMixPR.BtcEncode` (src/wire/msgmixpr.go lines 61-77): version check
first, then the fields Signature, Identity, Amount, ScriptClass,
TxVersion, LockTime, Expiry, MessageCount, UTXOs, Change in order. -/
def MsgMixPR.BtcEncode (pver : Nat) (m : MsgMixPR) : Except Err (List Nat) :=
  if pver < MixVersion then .error .msgInvalidForPVer
  else .ok (m.Signature ++ m.Identity ++ intToLE8 m.Amount ++
    putVarBytes m.ScriptClass ++ natToLE 2 m.TxVersion ++
    natToLE 4 m.LockTime ++ natToLE 4 m.Expiry ++ natToLE 4 m.MessageCount ++
    putVarInt m.UTXOs.length ++ concatMap' writeOutPoint m.UTXOs ++
    writeTxOut m.Change)

/-- `MsgMixPR.BtcDecode` (src/wire/msgmixpr.go lines 41-57): version check
first, then the same field order.  The Go call passes `msg.LockTime`,
`msg.Expiry` and `msg.MessageCount` BY VALUE (no `&`) to `readElements`;
an `interface{}` holding a plain `uint32` cannot write the struct field
back, and `encoding/binary.Read`'s fast path consumes the four bytes of a
non-pointer `uint32` without storing anything, so those three fields keep
the receiver's zero value while the stream position still advances by 12
bytes. -/
def MsgMixPR.BtcDecode (pver : Nat) (bs : List Nat) :
    Except Err (MsgMixPR × List Nat) :=
  if pver < MixVersion then .error .msgInvalidForPVer
  else
    rbind (readBytesE 64 bs) fun sig bs =>
    rbind (readBytesE 32 bs) fun idn bs =>
    rbind (readInt64 bs) fun amt bs =>
    rbind (readVarBytes bs) fun sc bs =>
    rbind (readNatLE 2 bs) fun txv bs =>
    rbind (readBytesE 4 bs) fun _ bs =>
    rbind (readBytesE 4 bs) fun _ bs =>
    rbind (readBytesE 4 bs) fun _ bs =>
    rbind (readVarInt bs) fun n bs =>
    rbind (readList readOutPoint n bs) fun utxos bs =>
    rbind (readTxOut bs) fun chg bs =>
    .ok (⟨sig, idn, amt, sc, txv, 0, 0, 0, utxos, chg⟩, bs)

/-- `MsgMixPR.Data` (src/wire/msgmixpr.go lines 28-37): the Go code
serializes Amount, ScriptClass, TxVersion, LockTime, Expiry,
MessageCount, UTXOs and Change into `bytes.NewBuffer(make([]byte, 20))`.
`bytes.NewBuffer` treats its argument as the buffer's existing contents,
so the returned bytes begin with 20 zero bytes, and `Identity` is not
among the written fields. -/
def MsgMixPR.Data (m : MsgMixPR) : List Nat :=
  List.replicate 20 0 ++ (intToLE8 m.Amount ++ putVarBytes m.ScriptClass ++
    natToLE 2 m.TxVersion ++ natToLE 4 m.LockTime ++ natToLE 4 m.Expiry ++
    natToLE 4 m.MessageCount ++ putVarInt m.UTXOs.length ++
    concatMap' writeOutPoint m.UTXOs ++ writeTxOut m.Change)

/-- `MsgMixKE` (src/unnamed/part_001). -/
structure MsgMixKE where
  Signature : List Nat
  Identity : List Nat
  ECDH : List Nat
  Commitment : List Nat
  Run : Nat
  SeenPRs : List (List Nat)
  PQPK : List Nat
deriving DecidableEq, Repr

/-- `MsgMixKE.BtcEncode` (src/unnamed/part_001 lines 57-72): version check
first; then Signature, Identity, ECDH, Commitment, Run, SeenPRs, PQPK. -/
def MsgMixKE.BtcEncode (pver : Nat) (m : MsgMixKE) : Except Err (List Nat) :=
  if pver < MixVersion then .error .msgInvalidForPVer
  else .ok (m.Signature ++ m.Identity ++ m.ECDH ++ m.Commitment ++
    natToLE 4 m.Run ++ putVarInt m.SeenPRs.length ++
    concatMap' (fun x => x) m.SeenPRs ++ m.PQPK)

/-- `MsgMixKE.BtcDecode` (src/unnamed/part_001 lines 38-53): version check
first, then the same field order (all fields passed by pointer). -/
def MsgMixKE.BtcDecode (pver : Nat) (bs : List Nat) :
    Except Err (MsgMixKE × List Nat) :=
  if pver < MixVersion then .error .msgInvalidForPVer
  else
    rbind (readBytesE 64 bs) fun sig bs =>
    rbind (readBytesE 32 bs) fun idn bs =>
    rbind (readBytesE 32 bs) fun ecdh bs =>
    rbind (readBytesE 32 bs) fun com bs =>
    rbind (readNatLE 4 bs) fun run bs =>
    rbind (readVarInt bs) fun n bs =>
    rbind (readList (readBytesE 32) n bs) fun seen bs =>
    rbind (readBytesE 1218 bs) fun pq bs =>
    .ok (⟨sig, idn, ecdh, com, run, seen, pq⟩, bs)

/-- `MsgMixKE.Data` (src/unnamed/part_001 lines 25-34): serializes ECDH,
Commitment, Run, SeenPRs, PQPK into `bytes.NewBuffer(make([]byte, 20))`,
so the output begins with 20 zero bytes and omits `Identity`. -/
def MsgMixKE.Data (m : MsgMixKE) : List Nat :=
  List.replicate 20 0 ++ (m.ECDH ++ m.Commitment ++ natToLE 4 m.Run ++
    putVarInt m.SeenPRs.length ++ concatMap' (fun x => x) m.SeenPRs ++ m.PQPK)

/-- `MsgMixCT` (src/wire/msgmixct.go): a 64-byte signature and a list of
1047-byte ciphertexts. -/
structure MsgMixCT where
  Signature : List Nat
  Ciphertexts : List (List Nat)
deriving DecidableEq, Repr

/-- `MsgMixCT.BtcEncode` (src/wire/msgmixct.go lines 40-54): version check
first; then Signature and Ciphertexts. -/
def MsgMixCT.BtcEncode (pver : Nat) (m : MsgMixCT) : Except Err (List Nat) :=
  if pver < MixVersion then .error .msgInvalidForPVer
  else .ok (m.Signature ++ putVarInt m.Ciphertexts.length ++
    concatMap' (fun x => x) m.Ciphertexts)

/-- `MsgMixCT.BtcDecode` (src/wire/msgmixct.go lines 22-36): version check
first; then Signature and Ciphertexts. -/
def MsgMixCT.BtcDecode (pver : Nat) (bs : List Nat) :
    Except Err (MsgMixCT × List Nat) :=
  if pver < MixVersion then .error .msgInvalidForPVer
  else
    rbind (readBytesE 64 bs) fun sig bs =>
    rbind (readVarInt bs) fun n bs =>
    rbind (readList (readBytesE 1047) n bs) fun cts bs =>
    .ok (⟨sig, cts⟩, bs)

/-- `MsgMixSR` (src/wire/msgmixsr.go): signature, run number and a list of
opaque byte blobs. -/
structure MsgMixSR where
  Signature : List Nat
  Run : Nat
  DCMix : List (List Nat)
deriving DecidableEq, Repr

/-- `MsgMixSR.BtcEncode` (src/wire/msgmixsr.go lines 41-55). -/
def MsgMixSR.BtcEncode (pver : Nat) (m : MsgMixSR) : Except Err (List Nat) :=
  if pver < MixVersion then .error .msgInvalidForPVer
  else .ok (m.Signature ++ natToLE 4 m.Run ++ putVarInt m.DCMix.length ++
    concatMap' putVarBytes m.DCMix)

/-- `MsgMixSR.BtcDecode` (src/wire/msgmixsr.go lines 23-37). -/
def MsgMixSR.BtcDecode (pver : Nat) (bs : List Nat) :
    Except Err (MsgMixSR × List Nat) :=
  if pver < MixVersion then .error .msgInvalidForPVer
  else
    rbind (readBytesE 64 bs) fun sig bs =>
    rbind (readNatLE 4 bs) fun run bs =>
    rbind (readVarInt bs) fun n bs =>
    rbind (readList readVarBytes n bs) fun mix bs =>
    .ok (⟨sig, run, mix⟩, bs)

/-- `MsgMixDCVector` (src/wire/msgmixdc.go).  The Go `int` fields are
modelled as signed 64-bit integers (modelled from the spec: "an integer
`n`, an integer `msize`", spec 3). -/
structure MsgMixDCVector where
  N : Int
  Msize : Int
  Data : List Nat
deriving DecidableEq, Repr

def writeDCVector (v : MsgMixDCVector) : List Nat :=
  intToLE8 v.N ++ intToLE8 v.Msize ++ putVarBytes v.Data

def readDCVector (bs : List Nat) : Except Err (MsgMixDCVector × List Nat) :=
  rbind (readInt64 bs) fun n bs =>
  rbind (readInt64 bs) fun ms bs =>
  rbind (readVarBytes bs) fun d bs =>
  .ok (⟨n, ms, d⟩, bs)

/-- `MsgMixDC` (src/wire/msgmixdc.go). -/
structure MsgMixDC where
  Signature : List Nat
  Run : Nat
  DCNet : List MsgMixDCVector
  RevealSecrets : Bool
deriving DecidableEq, Repr

/-- `MsgMixDC.BtcEncode` (src/wire/msgmixdc.go lines 48-62). -/
def MsgMixDC.BtcEncode (pver : Nat) (m : MsgMixDC) : Except Err (List Nat) :=
  if pver < MixVersion then .error .msgInvalidForPVer
  else .ok (m.Signature ++ natToLE 4 m.Run ++ putVarInt m.DCNet.length ++
    concatMap' writeDCVector m.DCNet ++ putBool m.RevealSecrets)

/-- `MsgMixDC.BtcDecode` (src/wire/msgmixdc.go lines 30-44). -/
def MsgMixDC.BtcDecode (pver : Nat) (bs : List Nat) :
    Except Err (MsgMixDC × List Nat) :=
  if pver < MixVersion then .error .msgInvalidForPVer
  else
    rbind (readBytesE 64 bs) fun sig bs =>
    rbind (readNatLE 4 bs) fun run bs =>
    rbind (readVarInt bs) fun n bs =>
    rbind (readList readDCVector n bs) fun net bs =>
    rbind (readBool bs) fun rs bs =>
    .ok (⟨sig, run, net, rs⟩, bs)

/-- `MsgMixCM` (src/unnamed/part_002 lines 14-18): signature,
reveal-secrets flag and the opaque mix blob. -/
structure MsgMixCM where
  Signature : List Nat
  RevealSecrets : Bool
  Mix : List Nat
deriving DecidableEq, Repr

/-- `MsgMixCM.BtcEncode` (src/unnamed/part_002 lines 41-56). -/
def MsgMixCM.BtcEncode (pver : Nat) (m : MsgMixCM) : Except Err (List Nat) :=
  if pver < MixVersion then .error .msgInvalidForPVer
  else .ok (m.Signature ++ putBool m.RevealSecrets ++ putVarBytes m.Mix)

/-- `MsgMixCM.BtcDecode` (src/unnamed/part_002 lines 22-37). -/
def MsgMixCM.BtcDecode (pver : Nat) (bs : List Nat) :
    Except Err (MsgMixCM × List Nat) :=
  if pver < MixVersion then .error .msgInvalidForPVer
  else
    rbind (readBytesE 64 bs) fun sig bs =>
    rbind (readBool bs) fun rs bs =>
    rbind (readVarBytes bs) fun mix bs =>
    .ok (⟨sig, rs, mix⟩, bs)

/-! ## Address classification and grouping (src/addrmgr/network.go)

Addresses are Go `netip.Addr` values: either an IPv4 address (4 bytes) or
an IPv6 address (16 bytes).  A `netip` IPv4-mapped IPv6 address
(::ffff:a.b.c.d) is an IPv6-family value, is never contained in an IPv4
`netip.Prefix`, and is special-cased only by `IsLoopback`. -/

/-- A `netip.Addr`: an IPv4 address or an IPv6 address (16 bytes). -/
inductive Addr where
  | v4 (b0 b1 b2 b3 : Nat)
  | v6 (bytes : List Nat)
deriving DecidableEq, Repr

/-- Well-formedness of an address: bytes are bytes, and an IPv6 address
has exactly 16 of them. -/
def Addr.wf : Addr → Prop
  | .v4 b0 b1 b2 b3 => b0 < 256 ∧ b1 < 256 ∧ b2 < 256 ∧ b3 < 256
  | .v6 bs => bs.length = 16 ∧ ∀ b ∈ bs, b < 256

instance (a : Addr) : Decidable a.wf := by
  cases a <;> (unfold Addr.wf; infer_instance)

/-- A `netip.Prefix`: address family, network bytes (4 or 16) and the
number of leading bits that must match. -/
structure IpNet where
  isV4 : Bool
  bytes : List Nat
  bits : Nat
deriving DecidableEq, Repr

/-- Do the first `bits` bits of the two byte lists agree? -/
def bitsMatch : List Nat → List Nat → Nat → Bool
  | p :: ps, a :: as, bits =>
      if 8 ≤ bits then p == a && bitsMatch ps as (bits - 8)
      else if bits = 0 then true
      else (p / 2 ^ (8 - bits)) == (a / 2 ^ (8 - bits))
  | _, _, bits => bits == 0

/-- `netip.Prefix.Contains`: false across address families (a v6 address,
including a 4-in-6 mapped one, never matches a v4 prefix), otherwise a
comparison of the first `bits` bits. -/
def IpNet.contains (p : IpNet) (a : Addr) : Bool :=
  match a with
  | .v4 b0 b1 b2 b3 => p.isV4 && bitsMatch p.bytes [b0, b1, b2, b3] p.bits
  | .v6 bs => !p.isV4 && bitsMatch p.bytes bs p.bits

/-- rfc1918Nets (src/addrmgr/network.go): 10.0.0.0/8, 172.16.0.0/12,
192.168.0.0/16. -/
def rfc1918Nets : List IpNet :=
  [⟨true, [10, 0, 0, 0], 8⟩, ⟨true, [172, 16, 0, 0], 12⟩,
   ⟨true, [192, 168, 0, 0], 16⟩]

/-- rfc2544Net: 198.18.0.0/15. -/
def rfc2544Net : IpNet := ⟨true, [198, 18, 0, 0], 15⟩

/-- rfc3849Net: 2001:DB8::/32. -/
def rfc3849Net : IpNet :=
  ⟨false, [0x20, 0x01, 0x0d, 0xb8, 0, 0, 0, 0, 0, 0, 0, 0, 0, 0, 0, 0], 32⟩

/-- rfc3927Net: 169.254.0.0/16. -/
def rfc3927Net : IpNet := ⟨true, [169, 254, 0, 0], 16⟩

/-- rfc3964Net: 2002::/16. -/
def rfc3964Net : IpNet :=
  ⟨false, [0x20, 0x02, 0, 0, 0, 0, 0, 0, 0, 0, 0, 0, 0, 0, 0, 0], 16⟩

/-- rfc4193Net: FC00::/7. -/
def rfc4193Net : IpNet :=
  ⟨false, [0xfc, 0, 0, 0, 0, 0, 0, 0, 0, 0, 0, 0, 0, 0, 0, 0], 7⟩

/-- rfc4380Net: 2001::/32. -/
def rfc4380Net : IpNet :=
  ⟨false, [0x20, 0x01, 0, 0, 0, 0, 0, 0, 0, 0, 0, 0, 0, 0, 0, 0], 32⟩

/-- rfc4843Net: 2001:10::/28. -/
def rfc4843Net : IpNet :=
  ⟨false, [0x20, 0x01, 0x00, 0x10, 0, 0, 0, 0, 0, 0, 0, 0, 0, 0, 0, 0], 28⟩

/-- rfc4862Net: FE80::/64. -/
def rfc4862Net : IpNet :=
  ⟨false, [0xfe, 0x80, 0, 0, 0, 0, 0, 0, 0, 0, 0, 0, 0, 0, 0, 0], 64⟩

/-- rfc5737Net: 192.0.2.0/24, 198.51.100.0/24, 203.0.113.0/24. -/
def rfc5737Net : List IpNet :=
  [⟨true, [192, 0, 2, 0], 24⟩, ⟨true, [198, 51, 100, 0], 24⟩,
   ⟨true, [203, 0, 113, 0], 24⟩]

/-- rfc6052Net: 64:FF9B::/96. -/
def rfc6052Net : IpNet :=
  ⟨false, [0, 0x64, 0xff, 0x9b, 0, 0, 0, 0, 0, 0, 0, 0, 0, 0, 0, 0], 96⟩

/-- rfc6145Net: ::FFFF:0:0:0/96 (bytes 8-9 are 0xFF). -/
def rfc6145Net : IpNet :=
  ⟨false, [0, 0, 0, 0, 0, 0, 0, 0, 0xff, 0xff, 0, 0, 0, 0, 0, 0], 96⟩

/-- rfc6598Net: 100.64.0.0/10. -/
def rfc6598Net : IpNet := ⟨true, [100, 64, 0, 0], 10⟩

/-- onionCatNet: fd87:d87e:eb43::/48. -/
def onionCatNet : IpNet :=
  ⟨false, [0xfd, 0x87, 0xd8, 0x7e, 0xeb, 0x43, 0, 0, 0, 0, 0, 0, 0, 0, 0, 0], 48⟩

/-- zero4Net: 0.0.0.0/8. -/
def zero4Net : IpNet := ⟨true, [0, 0, 0, 0], 8⟩

/-- heNet: 2001:470::/32 (Hurricane Electric). -/
def heNet : IpNet :=
  ⟨false, [0x20, 0x01, 0x04, 0x70, 0, 0, 0, 0, 0, 0, 0, 0, 0, 0, 0, 0], 32⟩

/-- `netip.Addr.IsLoopback`: 127.0.0.0/8 for an IPv4 address (including
the 4-in-6 mapped form ::ffff:127.x.y.z), or exactly ::1 for IPv6. -/
def isLoopback : Addr → Bool
  | .v4 b0 _ _ _ => b0 == 127
  | .v6 bs =>
      bs == [0, 0, 0, 0, 0, 0, 0, 0, 0, 0, 0, 0, 0, 0, 0, 1] ||
      (bs.take 12 == [0, 0, 0, 0, 0, 0, 0, 0, 0, 0, 255, 255] &&
        bs.getD 12 0 == 127)

/-- `netip.Addr.IsUnspecified`: 0.0.0.0 or ::. -/
def isUnspecified : Addr → Bool
  | .v4 b0 b1 b2 b3 => b0 == 0 && b1 == 0 && b2 == 0 && b3 == 0
  | .v6 bs => bs == List.replicate 16 0

/-- Comparison with `ipv4bcast` (255.255.255.255); a v6 address never
compares equal to a v4 address under `netip.Addr.Compare`. -/
def isIpv4Bcast : Addr → Bool
  | .v4 b0 b1 b2 b3 => b0 == 255 && b1 == 255 && b2 == 255 && b3 == 255
  | .v6 _ => false

/-- `isLocal` (src/addrmgr/network.go lines 105-107): loopback or
0.0.0.0/8. -/
def isLocal (a : Addr) : Bool := isLoopback a || zero4Net.contains a

/-- `isOnionCatTor` (src/addrmgr/network.go lines 113-115). -/
def isOnionCatTor (a : Addr) : Bool := onionCatNet.contains a

def isRFC1918 (a : Addr) : Bool := rfc1918Nets.any (fun p => p.contains a)

def isRFC2544 (a : Addr) : Bool := rfc2544Net.contains a

def isRFC3849 (a : Addr) : Bool := rfc3849Net.contains a

def isRFC3927 (a : Addr) : Bool := rfc3927Net.contains a

def isRFC3964 (a : Addr) : Bool := rfc3964Net.contains a

def isRFC4193 (a : Addr) : Bool := rfc4193Net.contains a

def isRFC4380 (a : Addr) : Bool := rfc4380Net.contains a

def isRFC4843 (a : Addr) : Bool := rfc4843Net.contains a

def isRFC4862 (a : Addr) : Bool := rfc4862Net.contains a

def isRFC5737 (a : Addr) : Bool := rfc5737Net.any (fun p => p.contains a)

def isRFC6052 (a : Addr) : Bool := rfc6052Net.contains a

def isRFC6145 (a : Addr) : Bool := rfc6145Net.contains a

def isRFC6598 (a : Addr) : Bool := rfc6598Net.contains a

/-- `isValid` (src/addrmgr/network.go lines 240-245): not unspecified and
not the all-ones IPv4 broadcast.  (The `addr.IsValid()` conjunct of the Go
code is always true here: the model has no zero `netip.Addr` value.) -/
def isValid (a : Addr) : Bool := !(isUnspecified a || isIpv4Bcast a)

/-- `IsRoutable` (src/addrmgr/network.go lines 250-255). -/
def IsRoutable (a : Addr) : Bool :=
  isValid a && !(isRFC1918 a || isRFC2544 a || isRFC3927 a || isRFC4862 a ||
    isRFC3849 a || isRFC4843 a || isRFC5737 a || isRFC6598 a || isLocal a ||
    (isRFC4193 a && !isOnionCatTor a))

/-! ### Address rendering (netip.Addr.String / Prefix.Masked) -/

/-- Keep only the first `bits` bits of a byte list, zeroing the rest; the
effect of `netip.Prefix.Masked` on the address bytes. -/
def maskBytes : List Nat → Nat → List Nat
  | [], _ => []
  | b :: bs, bits =>
      if 8 ≤ bits then b :: maskBytes bs (bits - 8)
      else if bits = 0 then 0 :: maskBytes bs 0
      else (b / 2 ^ (8 - bits) * 2 ^ (8 - bits)) :: maskBytes bs 0

/-- Dotted-decimal rendering of an IPv4 address (netip.Addr.String). -/
def v4String (a b c d : Nat) : String :=
  toString a ++ "." ++ toString b ++ "." ++ toString c ++ "." ++ toString d

/-- `netip.PrefixFrom(v4, bits).Masked().Addr().String()`. -/
def v4MaskedString (b0 b1 b2 b3 bits : Nat) : String :=
  match maskBytes [b0, b1, b2, b3] bits with
  | [a, b, c, d] => v4String a b c d
  | _ => ""

/-- Lowercase hexadecimal digit. -/
def hexChar (n : Nat) : Char :=
  if n < 10 then Char.ofNat (48 + n) else Char.ofNat (87 + n)

/-- Lowercase hexadecimal rendering of a 16-bit group, without leading
zeros (netip appendHex). -/
def hexU16 (n : Nat) : String :=
  String.mk (((List.dropWhile (fun d => d == 0)
    [n / 4096 % 16, n / 256 % 16, n / 16 % 16]) ++ [n % 16]).map hexChar)

/-- Combine 16 bytes into 8 16-bit groups. -/
def bytesToGroups : List Nat → List Nat
  | a :: b :: rest => (a * 256 + b) :: bytesToGroups rest
  | _ => []

/-- Length of the leading run of zero groups. -/
def leadZeros : List Nat → Nat
  | [] => 0
  | g :: gs => if g = 0 then 1 + leadZeros gs else 0

/-- The longest leftmost run of at least two zero groups, as (start,
length), if any (netip appendTo6's zeroStart/zeroEnd scan; a strictly
longer run is required to displace an earlier one, so ties go left). -/
def bestZeroRun (gs : List Nat) : Option (Nat × Nat) :=
  (List.range gs.length).foldl
    (fun best i =>
      let l := leadZeros (gs.drop i)
      if decide (2 ≤ l) &&
          (match best with | none => true | some (_, bl) => decide (bl < l))
      then some (i, l) else best)
    none

/-- RFC 5952-style rendering of 8 groups: the longest leftmost run of two
or more zero groups collapses to "::" (netip.Addr.String for IPv6; the
4-in-6 dotted special case cannot arise here because every caller first
masks to at most /36, which zeroes bytes 10 and 11). -/
def renderV6 (gs : List Nat) : String :=
  match bestZeroRun gs with
  | none => String.intercalate ":" (gs.map hexU16)
  | some (i, l) =>
      String.intercalate ":" ((gs.take i).map hexU16) ++ "::" ++
      String.intercalate ":" ((gs.drop (i + l)).map hexU16)

/-- `NetAddress.GroupKey` (src/addrmgr/network.go lines 262-313).  The Go
receiver is an addrmgr `NetAddress`; only its `IP` field (a `netip.Addr`)
is read, so the model takes the address directly.  "local" for local
addresses; "unroutable" for non-routable ones; the /16 network string for
IPv4; the /16 of the embedded IPv4 address for RFC6145/RFC6052 (last four
bytes), RFC3964 (bytes 2-6) and RFC4380 (last four bytes XOR 0xff); the
"tor:" key for onion-cat addresses (low four bits of byte 6); otherwise
the masked /32 IPv6 network, /36 inside the Hurricane Electric block. -/
def GroupKey (netIP : Addr) : String :=
  if isLocal netIP then "local"
  else if !(IsRoutable netIP) then "unroutable"
  else
    match netIP with
    | .v4 b0 b1 b2 b3 => v4MaskedString b0 b1 b2 b3 16
    | .v6 bs =>
        if isRFC6145 netIP || isRFC6052 netIP then
          -- last four bytes are the ip address
          match bs.drop 12 with
          | [a, b, c, d] => v4MaskedString a b c d 16
          | _ => ""
        else if isRFC3964 netIP then
          match (bs.drop 2).take 4 with
          | [a, b, c, d] => v4MaskedString a b c d 16
          | _ => ""
        else if isRFC4380 netIP then
          -- teredo tunnels have the last 4 bytes as the v4 address XOR 0xff
          match (bs.drop 12).map (fun x => x ^^^ 0xff) with
          | [a, b, c, d] => v4MaskedString a b c d 16
          | _ => ""
        else if isOnionCatTor netIP then
          -- group is keyed off the first 4 bits of the actual onion key
          "tor:" ++ toString (bs.getD 6 0 &&& 15)
        else
          let bits := if heNet.contains netIP then 36 else 32
          renderV6 (bytesToGroups (maskBytes bs bits))

/-! ## Claim-side predicates

These definitions follow the words of the spec and claims (independent
arithmetic formulations of the named ranges), to be compared with the
source-derived functions above. -/

/-- Claim wording: "invalid (unspecified or the all-ones IPv4 broadcast
address)". -/
def claimInvalid : Addr → Bool
  | .v4 b0 b1 b2 b3 =>
      (b0 == 0 && b1 == 0 && b2 == 0 && b3 == 0) ||
      (b0 == 255 && b1 == 255 && b2 == 255 && b3 == 255)
  | .v6 bs => bs == List.replicate 16 0

/-- Claim wording: "local (loopback or in 0.0.0.0/8)".  Loopback is
127.0.0.0/8 for IPv4 (also in the 4-in-6 mapped form) and ::1 for
IPv6. -/
def claimLocal : Addr → Bool
  | .v4 b0 _ _ _ => b0 == 127 || b0 == 0
  | .v6 bs =>
      bs == [0, 0, 0, 0, 0, 0, 0, 0, 0, 0, 0, 0, 0, 0, 0, 1] ||
      (bs.take 12 == [0, 0, 0, 0, 0, 0, 0, 0, 0, 0, 255, 255] &&
        bs.getD 12 0 == 127)

/-- The reserved ranges listed by the claim: RFC1918, RFC2544
(198.18.0.0/15), RFC3927 (169.254.0.0/16), RFC3849 (2001:DB8::/32),
RFC4843 (2001:10::/28), RFC5737, RFC6598 (100.64.0.0/10), and RFC4193
(FC00::/7) except its Tor-onion sub-block fd87:d87e:eb43::/48 — written
as arithmetic conditions on the raw bytes. -/
def claimReservedRanges : Addr → Bool
  | .v4 b0 b1 b2 _ =>
      b0 == 10 ||
      (b0 == 172 && decide (16 ≤ b1) && decide (b1 < 32)) ||
      (b0 == 192 && b1 == 168) ||
      (b0 == 198 && (b1 == 18 || b1 == 19)) ||
      (b0 == 169 && b1 == 254) ||
      (b0 == 192 && b1 == 0 && b2 == 2) ||
      (b0 == 198 && b1 == 51 && b2 == 100) ||
      (b0 == 203 && b1 == 0 && b2 == 113) ||
      (b0 == 100 && decide (64 ≤ b1) && decide (b1 < 128))
  | .v6 bs =>
      let b0 := bs.getD 0 0
      let b1 := bs.getD 1 0
      let b2 := bs.getD 2 0
      let b3 := bs.getD 3 0
      let b4 := bs.getD 4 0
      let b5 := bs.getD 5 0
      (b0 == 0x20 && b1 == 0x01 && b2 == 0x0d && b3 == 0xb8) ||
      (b0 == 0x20 && b1 == 0x01 && b2 == 0x00 &&
        decide (16 ≤ b3) && decide (b3 < 32)) ||
      ((b0 == 252 || b0 == 253) &&
        !(b0 == 0xfd && b1 == 0x87 && b2 == 0xd8 && b3 == 0x7e &&
          b4 == 0xeb && b5 == 0x43))

/-- The claim's non-routability condition exactly as stated (note: no
RFC4862 / FE80::/64 clause). -/
def claimNonRoutable (a : Addr) : Bool :=
  claimInvalid a || claimLocal a || claimReservedRanges a

/-- RFC4862 (FE80::/64) as an arithmetic condition on the raw bytes. -/
def claimFE80 : Addr → Bool
  | .v4 _ _ _ _ => false
  | .v6 bs =>
      bs.getD 0 0 == 0xfe && bs.getD 1 0 == 0x80 && bs.getD 2 0 == 0 &&
      bs.getD 3 0 == 0 && bs.getD 4 0 == 0 && bs.getD 5 0 == 0 &&
      bs.getD 6 0 == 0 && bs.getD 7 0 == 0

/-- The claim's non-routability condition amended with the RFC4862 range
the source also excludes. -/
def claimNonRoutableAmended (a : Addr) : Bool :=
  claimNonRoutable a || claimFE80 a

/-- Claim C9's stated behavior of the address field: zero-pad or truncate
to the kind's fixed width for IPv4 and IPv6; for TorV3, the slice when it
is exactly 32 bytes and 32 zero bytes otherwise. -/
def claimAddrFieldBytes (t : Nat) (ip : List Nat) : List Nat :=
  if t = 1 then padTruncTo 4 ip
  else if t = 2 then padTruncTo 16 ip
  else if ip.length = 32 then ip else List.replicate 32 0

/-- The record encoder as described by the amended claim C9: for IPv4 the
slice is zero-padded or truncated to 4 bytes; for IPv6 a 16-byte slice is
written as-is, a 4-byte slice is written in the IPv4-mapped IPv6 form,
and any other slice (including nil) is written as 16 zero bytes; for
TorV3 at or above the threshold a 32-byte slice is written as-is and any
other slice as 32 zero bytes; everything else is rejected. -/
def writeNetAddressV2Amended (pver : Nat) (na : NetAddressV2) :
    Except Err (List Nat) :=
  if na.addrType = 1 ∨ na.addrType = 2 ∨
      (na.addrType = 3 ∧ RelayTORv3Version ≤ pver) then
    .ok (intToLE8 na.Timestamp ++ natToLE 8 na.Services ++ [na.addrType % 256] ++
      (if na.addrType = 1 then padTruncTo 4 na.IP
       else if na.addrType = 2 then
         (if na.IP.length = 16 then na.IP
          else if na.IP.length = 4 then List.replicate 10 0 ++ [255, 255] ++ na.IP
          else List.replicate 16 0)
       else (if na.IP.length = 32 then na.IP else List.replicate 32 0)) ++
      natToLE 2 na.Port)
  else .error .invalidMsg

theorem exists16 (l : List Nat) (hl : l.length = 16) :
    ∃ b0 b1 b2 b3 b4 b5 b6 b7 b8 b9 b10 b11 b12 b13 b14 b15,
      l = [b0, b1, b2, b3, b4, b5, b6, b7, b8, b9, b10, b11, b12, b13, b14, b15] := by
  rcases l with _ | ⟨b0, l⟩
  · exact absurd hl (by simp)
  rcases l with _ | ⟨b1, l⟩
  · exact absurd hl (by simp)
  rcases l with _ | ⟨b2, l⟩
  · exact absurd hl (by simp)
  rcases l with _ | ⟨b3, l⟩
  · exact absurd hl (by simp)
  rcases l with _ | ⟨b4, l⟩
  · exact absurd hl (by simp)
  rcases l with _ | ⟨b5, l⟩
  · exact absurd hl (by simp)
  rcases l with _ | ⟨b6, l⟩
  · exact absurd hl (by simp)
  rcases l with _ | ⟨b7, l⟩
  · exact absurd hl (by simp)
  rcases l with _ | ⟨b8, l⟩
  · exact absurd hl (by simp)
  rcases l with _ | ⟨b9, l⟩
  · exact absurd hl (by simp)
  rcases l with _ | ⟨b10, l⟩
  · exact absurd hl (by simp)
  rcases l with _ | ⟨b11, l⟩
  · exact absurd hl (by simp)
  rcases l with _ | ⟨b12, l⟩
  · exact absurd hl (by simp)
  rcases l with _ | ⟨b13, l⟩
  · exact absurd hl (by simp)
  rcases l with _ | ⟨b14, l⟩
  · exact absurd hl (by simp)
  rcases l with _ | ⟨b15, l⟩
  · exact absurd hl (by simp)
  rcases l with _ | ⟨b16, l⟩
  · exact ⟨b0, b1, b2, b3, b4, b5, b6, b7, b8, b9, b10, b11, b12, b13, b14, b15, rfl⟩
  · exfalso
    simp only [List.length_cons, List.length_nil] at hl
    omega

theorem andEqFalse (a b : Bool) : (a && b) = false ↔ a = false ∨ b = false := by
  cases a <;> cases b <;> simp

theorem notEqFalse (a : Bool) : (!a) = false ↔ a = true := by cases a <;> simp

theorem notEqTrue (a : Bool) : (!a) = true ↔ a = false := by cases a <;> simp

theorem isValid_v4_false (b0 b1 b2 b3 : Nat) :
    isValid (.v4 b0 b1 b2 b3) = false ↔
      ((b0 = 0 ∧ b1 = 0 ∧ b2 = 0 ∧ b3 = 0) ∨
       (b0 = 255 ∧ b1 = 255 ∧ b2 = 255 ∧ b3 = 255)) := by
  simp [isValid, isUnspecified, isIpv4Bcast]
  omega

theorem isLocal_v4 (b0 b1 b2 b3 : Nat) :
    isLocal (.v4 b0 b1 b2 b3) = true ↔ (b0 = 127 ∨ b0 = 0) := by
  simp [isLocal, isLoopback, zero4Net, IpNet.contains, bitsMatch]
  omega

theorem isRFC1918_v4 (b0 b1 b2 b3 : Nat) :
    isRFC1918 (.v4 b0 b1 b2 b3) = true ↔
      (b0 = 10 ∨ (b0 = 172 ∧ 16 ≤ b1 ∧ b1 < 32) ∨ (b0 = 192 ∧ b1 = 168)) := by
  simp [isRFC1918, rfc1918Nets, IpNet.contains, bitsMatch]
  omega

theorem isRFC2544_v4 (b0 b1 b2 b3 : Nat) :
    isRFC2544 (.v4 b0 b1 b2 b3) = true ↔ (b0 = 198 ∧ (b1 = 18 ∨ b1 = 19)) := by
  simp [isRFC2544, rfc2544Net, IpNet.contains, bitsMatch]
  omega

theorem isRFC3927_v4 (b0 b1 b2 b3 : Nat) :
    isRFC3927 (.v4 b0 b1 b2 b3) = true ↔ (b0 = 169 ∧ b1 = 254) := by
  simp [isRFC3927, rfc3927Net, IpNet.contains, bitsMatch]
  omega

theorem isRFC5737_v4 (b0 b1 b2 b3 : Nat) :
    isRFC5737 (.v4 b0 b1 b2 b3) = true ↔
      ((b0 = 192 ∧ b1 = 0 ∧ b2 = 2) ∨ (b0 = 198 ∧ b1 = 51 ∧ b2 = 100) ∨
       (b0 = 203 ∧ b1 = 0 ∧ b2 = 113)) := by
  simp [isRFC5737, rfc5737Net, IpNet.contains, bitsMatch]
  omega

theorem isRFC6598_v4 (b0 b1 b2 b3 : Nat) :
    isRFC6598 (.v4 b0 b1 b2 b3) = true ↔ (b0 = 100 ∧ 64 ≤ b1 ∧ b1 < 128) := by
  simp [isRFC6598, rfc6598Net, IpNet.contains, bitsMatch]
  omega

theorem isRFC3849_v4 (b0 b1 b2 b3 : Nat) :
    isRFC3849 (.v4 b0 b1 b2 b3) = false := by
  simp [isRFC3849, rfc3849Net, IpNet.contains]

theorem isRFC4843_v4 (b0 b1 b2 b3 : Nat) :
    isRFC4843 (.v4 b0 b1 b2 b3) = false := by
  simp [isRFC4843, rfc4843Net, IpNet.contains]

theorem isRFC4862_v4 (b0 b1 b2 b3 : Nat) :
    isRFC4862 (.v4 b0 b1 b2 b3) = false := by
  simp [isRFC4862, rfc4862Net, IpNet.contains]

theorem isRFC4193_v4 (b0 b1 b2 b3 : Nat) :
    isRFC4193 (.v4 b0 b1 b2 b3) = false := by
  simp [isRFC4193, rfc4193Net, IpNet.contains]

theorem isOnionCatTor_v4 (b0 b1 b2 b3 : Nat) :
    isOnionCatTor (.v4 b0 b1 b2 b3) = false := by
  simp [isOnionCatTor, onionCatNet, IpNet.contains]

theorem isRFC1918_v6 (bs : List Nat) : isRFC1918 (.v6 bs) = false := by
  simp [isRFC1918, rfc1918Nets, IpNet.contains]

theorem isRFC2544_v6 (bs : List Nat) : isRFC2544 (.v6 bs) = false := by
  simp [isRFC2544, rfc2544Net, IpNet.contains]

theorem isRFC3927_v6 (bs : List Nat) : isRFC3927 (.v6 bs) = false := by
  simp [isRFC3927, rfc3927Net, IpNet.contains]

theorem isRFC5737_v6 (bs : List Nat) : isRFC5737 (.v6 bs) = false := by
  simp [isRFC5737, rfc5737Net, IpNet.contains]

theorem isRFC6598_v6 (bs : List Nat) : isRFC6598 (.v6 bs) = false := by
  simp [isRFC6598, rfc6598Net, IpNet.contains]

theorem isValid_v6_false (b0 b1 b2 b3 b4 b5 b6 b7 b8 b9 b10 b11 b12 b13 b14 b15 : Nat) :
    isValid (.v6 [b0, b1, b2, b3, b4, b5, b6, b7, b8, b9, b10, b11, b12, b13, b14, b15]) = false ↔
      (b0 = 0 ∧ b1 = 0 ∧ b2 = 0 ∧ b3 = 0 ∧ b4 = 0 ∧ b5 = 0 ∧ b6 = 0 ∧ b7 = 0 ∧
       b8 = 0 ∧ b9 = 0 ∧ b10 = 0 ∧ b11 = 0 ∧ b12 = 0 ∧ b13 = 0 ∧ b14 = 0 ∧ b15 = 0) := by
  simp [isValid, isUnspecified, isIpv4Bcast, List.replicate]

theorem isLocal_v6 (b0 b1 b2 b3 b4 b5 b6 b7 b8 b9 b10 b11 b12 b13 b14 b15 : Nat) :
    isLocal (.v6 [b0, b1, b2, b3, b4, b5, b6, b7, b8, b9, b10, b11, b12, b13, b14, b15]) = true ↔
      ((b0 = 0 ∧ b1 = 0 ∧ b2 = 0 ∧ b3 = 0 ∧ b4 = 0 ∧ b5 = 0 ∧ b6 = 0 ∧ b7 = 0 ∧
        b8 = 0 ∧ b9 = 0 ∧ b10 = 0 ∧ b11 = 0 ∧ b12 = 0 ∧ b13 = 0 ∧ b14 = 0 ∧ b15 = 1) ∨
       (b0 = 0 ∧ b1 = 0 ∧ b2 = 0 ∧ b3 = 0 ∧ b4 = 0 ∧ b5 = 0 ∧ b6 = 0 ∧ b7 = 0 ∧
        b8 = 0 ∧ b9 = 0 ∧ b10 = 255 ∧ b11 = 255 ∧ b12 = 127)) := by
  simp [isLocal, isLoopback, zero4Net, IpNet.contains, List.getD]
  omega

theorem isRFC3849_v6 (b0 b1 b2 b3 b4 b5 b6 b7 b8 b9 b10 b11 b12 b13 b14 b15 : Nat) :
    isRFC3849 (.v6 [b0, b1, b2, b3, b4, b5, b6, b7, b8, b9, b10, b11, b12, b13, b14, b15]) = true ↔
      (b0 = 0x20 ∧ b1 = 0x01 ∧ b2 = 0x0d ∧ b3 = 0xb8) := by
  simp [isRFC3849, rfc3849Net, IpNet.contains, bitsMatch]
  omega

theorem isRFC4843_v6 (b0 b1 b2 b3 b4 b5 b6 b7 b8 b9 b10 b11 b12 b13 b14 b15 : Nat) :
    isRFC4843 (.v6 [b0, b1, b2, b3, b4, b5, b6, b7, b8, b9, b10, b11, b12, b13, b14, b15]) = true ↔
      (b0 = 0x20 ∧ b1 = 0x01 ∧ b2 = 0 ∧ 16 ≤ b3 ∧ b3 < 32) := by
  simp [isRFC4843, rfc4843Net, IpNet.contains, bitsMatch]
  omega

theorem isRFC4862_v6 (b0 b1 b2 b3 b4 b5 b6 b7 b8 b9 b10 b11 b12 b13 b14 b15 : Nat) :
    isRFC4862 (.v6 [b0, b1, b2, b3, b4, b5, b6, b7, b8, b9, b10, b11, b12, b13, b14, b15]) = true ↔
      (b0 = 0xfe ∧ b1 = 0x80 ∧ b2 = 0 ∧ b3 = 0 ∧ b4 = 0 ∧ b5 = 0 ∧ b6 = 0 ∧ b7 = 0) := by
  simp [isRFC4862, rfc4862Net, IpNet.contains, bitsMatch]
  omega

theorem isRFC4193_v6 (b0 b1 b2 b3 b4 b5 b6 b7 b8 b9 b10 b11 b12 b13 b14 b15 : Nat) :
    isRFC4193 (.v6 [b0, b1, b2, b3, b4, b5, b6, b7, b8, b9, b10, b11, b12, b13, b14, b15]) = true ↔
      (b0 = 252 ∨ b0 = 253) := by
  simp [isRFC4193, rfc4193Net, IpNet.contains, bitsMatch]
  omega

theorem isOnionCatTor_v6_false (b0 b1 b2 b3 b4 b5 b6 b7 b8 b9 b10 b11 b12 b13 b14 b15 : Nat) :
    isOnionCatTor (.v6 [b0, b1, b2, b3, b4, b5, b6, b7, b8, b9, b10, b11, b12, b13, b14, b15]) = false ↔
      (¬ b0 = 253 ∨ ¬ b1 = 135 ∨ ¬ b2 = 216 ∨ ¬ b3 = 126 ∨ ¬ b4 = 235 ∨
       ¬ b5 = 67) := by
  simp [isOnionCatTor, onionCatNet, IpNet.contains, bitsMatch]
  omega

set_option maxHeartbeats 800000 in
/-- C5 (amended): `IsRoutable` returns false exactly on the addresses that
are invalid (unspecified or the all-ones IPv4 broadcast), local, in one of
the reserved ranges the claim lists, or additionally in RFC4862
(FE80::/64), which the source also excludes. -/
theorem isroutable_iff_amended (a : Addr) (h : a.wf) :
    IsRoutable a = false ↔ claimNonRoutableAmended a = true := by
  cases a with
  | v4 b0 b1 b2 b3 =>
    simp only [IsRoutable, andEqFalse, notEqFalse, Bool.or_eq_true,
      Bool.and_eq_true, notEqTrue, isValid_v4_false, isLocal_v4, isRFC1918_v4,
      isRFC2544_v4, isRFC3927_v4, isRFC5737_v4, isRFC6598_v4, isRFC3849_v4,
      isRFC4843_v4, isRFC4862_v4, isRFC4193_v4, isOnionCatTor_v4,
      Bool.false_eq_true, false_or, or_false, false_and, and_false]
    simp [claimNonRoutableAmended, claimNonRoutable, claimInvalid, claimLocal,
      claimReservedRanges, claimFE80]
    itauto
  | v6 bs =>
    obtain ⟨hlen, _⟩ := h
    obtain ⟨b0, b1, b2, b3, b4, b5, b6, b7, b8, b9, b10, b11, b12, b13, b14, b15,
      rfl⟩ := exists16 bs hlen
    simp only [IsRoutable, andEqFalse, notEqFalse, Bool.or_eq_true,
      Bool.and_eq_true, notEqTrue, isValid_v6_false, isLocal_v6, isRFC1918_v6,
      isRFC2544_v6, isRFC3927_v6, isRFC5737_v6, isRFC6598_v6, isRFC3849_v6,
      isRFC4843_v6, isRFC4862_v6, isRFC4193_v6, isOnionCatTor_v6_false,
      Bool.false_eq_true, false_or, or_false, false_and, and_false]
    simp [claimNonRoutableAmended, claimNonRoutable, claimInvalid, claimLocal,
      claimReservedRanges, claimFE80, List.getD]
    itauto

/-! ## Claim theorems -/

/-- Field-width invariants of a mixct message: 64-byte signature,
1047-byte ciphertexts, and a list length encodable as a compact size. -/
def MsgMixCT.wf (m : MsgMixCT) : Prop :=
  m.Signature.length = 64 ∧ (∀ b ∈ m.Signature, b < 256) ∧
  m.Ciphertexts.length < 2 ^ 64 ∧
  ∀ ct ∈ m.Ciphertexts, ct.length = 1047 ∧ ∀ b ∈ ct, b < 256

instance (m : MsgMixCT) : Decidable m.wf := by
  unfold MsgMixCT.wf; infer_instance

/-- C10: the mixct message's body is the 64-byte signature followed by a
compact-size-count-prefixed list of 1047-byte ciphertext blobs; encode and
decode both fail with the version-mismatch error below the mix version
(for any input and without reading it), and at or above that version an
encoded mixct message decodes back to an equal value. -/
theorem mixct_contract (pver : Nat) (m : MsgMixCT) :
    (pver < MixVersion →
      (∀ bs, MsgMixCT.BtcDecode pver bs = .error .msgInvalidForPVer) ∧
      MsgMixCT.BtcEncode pver m = .error .msgInvalidForPVer) ∧
    (MixVersion ≤ pver → m.wf →
      MsgMixCT.BtcEncode pver m =
        .ok (m.Signature ++ putVarInt m.Ciphertexts.length ++
          concatMap' (fun x => x) m.Ciphertexts) ∧
      MsgMixCT.BtcDecode pver (m.Signature ++ putVarInt m.Ciphertexts.length ++
          concatMap' (fun x => x) m.Ciphertexts) = .ok (m, [])) := by
  constructor
  · intro h
    exact ⟨fun bs => by simp [MsgMixCT.BtcDecode, h],
      by simp [MsgMixCT.BtcEncode, h]⟩
  · intro h hwf
    obtain ⟨hsig, _, hn, hcts⟩ := hwf
    refine ⟨by simp [MsgMixCT.BtcEncode, Nat.not_lt.mpr h], ?_⟩
    unfold MsgMixCT.BtcDecode
    rw [if_neg (by omega)]
    obtain ⟨sig, cts⟩ := m
    simp only at hsig hn hcts ⊢
    simp only [List.append_assoc]
    rw [readBytesE_append_of_len _ _ hsig, rbind_ok,
      readVarInt_putVarInt _ hn, rbind_ok]
    have := readList_concatMap (fun x => x) (readBytesE 1047) cts
      (fun ct hct r => readBytesE_append_of_len _ _ (hcts ct hct).1) []
    rw [List.append_nil] at this
    rw [this, rbind_ok]

/-- C10 witness: the contract instantiated at a version below the mix
version and, for the round trip, at the mix version on a message with an
all-zero signature and no ciphertexts. -/
theorem mixct_contract_witness :
    ((∀ bs, MsgMixCT.BtcDecode 0 bs = .error .msgInvalidForPVer) ∧
      MsgMixCT.BtcEncode 0 ⟨List.replicate 64 0, []⟩ =
        .error .msgInvalidForPVer) ∧
    (MsgMixCT.BtcEncode MixVersion ⟨List.replicate 64 0, []⟩ =
      .ok (List.replicate 64 0 ++ putVarInt 0 ++ concatMap' (fun x => x) []) ∧
     MsgMixCT.BtcDecode MixVersion (List.replicate 64 0 ++ putVarInt 0 ++
        concatMap' (fun x => x) []) =
      .ok (⟨List.replicate 64 0, []⟩, [])) := by
  constructor
  · exact (mixct_contract 0 ⟨List.replicate 64 0, []⟩).1 (by decide)
  · have h := (mixct_contract MixVersion
      ⟨List.replicate 64 0, []⟩).2 (le_refl _) (by decide)
    simpa using h

/-- A pair-request message with nonzero LockTime, Expiry and MessageCount
and all other fields zero / empty. -/
def prSample : MsgMixPR :=
  { Signature := List.replicate 64 0, Identity := List.replicate 32 0,
    Amount := 0, ScriptClass := [], TxVersion := 0, LockTime := 1, Expiry := 2,
    MessageCount := 3, UTXOs := [], Change := ⟨0, 0, []⟩ }

/-- C1: the encode-then-decode round trip does NOT hold for `MsgMixPR`:
decoding the bytes produced by encoding `prSample` at the mix version
succeeds and consumes the whole stream, but returns a message whose
LockTime, Expiry and MessageCount are zero (the Go decode passes those
fields to `readElements` by value), so the result differs from the
original. -/
theorem mixpr_decode_zeroes_partial_fields :
    MsgMixPR.BtcDecode MixVersion
        ((MsgMixPR.BtcEncode MixVersion prSample).toOption.getD []) =
      .ok ({ prSample with LockTime := 0, Expiry := 0, MessageCount := 0 }, []) ∧
    ({ prSample with LockTime := 0, Expiry := 0, MessageCount := 0 } : MsgMixPR) ≠
      prSample := by
  exact ⟨by rfl, by decide⟩

/-- C4: `MsgMixPR.Data` is not the full-encode-minus-signature payload the
spec describes: its output starts with 20 zero bytes (the
`bytes.NewBuffer(make([]byte, 20))` slip) and omits Identity, so it
differs from the encoding with the 64-byte signature dropped. -/
theorem mixpr_data_not_signable_payload :
    (MsgMixPR.Data prSample).take 20 = List.replicate 20 0 ∧
    MsgMixPR.Data prSample ≠
      ((MsgMixPR.BtcEncode MixVersion prSample).toOption.getD []).drop 64 := by
  exact ⟨by decide, by decide⟩

/-- The IPv4 test address of src/wire/netaddressv2.go (127.0.0.1:9108,
timestamp 0x495fab29, services SFNodeNetwork). -/
def sampleNA : NetAddressV2 := ⟨1, [127, 0, 0, 1], 9108, 0x495fab29, 1⟩

/-- C2: at or above the addrv2 version, a 1000-record list encodes and
decodes (round trip); a 1001-record list fails to encode with
`ErrTooManyAddrs`; an empty list fails to encode with `ErrTooFewAddrs`; a
wire count above 1000 fails decoding with `ErrTooManyAddrs` whatever
bytes follow the count (so before any record is read); a wire count of 0
likewise fails with `ErrTooFewAddrs`. -/
theorem addrv2_count_bounds (pver : Nat) (hp : AddrV2Version ≤ pver) :
    (∀ msg : MsgAddrV2, msg.AddrList.length = 1000 →
       (∀ na ∈ msg.AddrList, na.wf pver) →
       ∃ bs, MsgAddrV2.BtcEncode pver msg = .ok bs ∧
         MsgAddrV2.BtcDecode pver bs = .ok (msg, [])) ∧
    (∀ msg : MsgAddrV2, msg.AddrList.length = 1001 →
       MsgAddrV2.BtcEncode pver msg = .error .tooManyAddrs) ∧
    (∀ msg : MsgAddrV2, msg.AddrList.length = 0 →
       MsgAddrV2.BtcEncode pver msg = .error .tooFewAddrs) ∧
    (∀ n rest, 1000 < n → n < 2 ^ 64 →
       MsgAddrV2.BtcDecode pver (putVarInt n ++ rest) = .error .tooManyAddrs) ∧
    (∀ rest, MsgAddrV2.BtcDecode pver (putVarInt 0 ++ rest) =
       .error .tooFewAddrs) := by
  refine ⟨?_, ?_, ?_, ?_, ?_⟩
  · intro msg hlen hwf
    exact msgAddrV2_roundtrip pver msg hp (by omega)
      (by unfold MaxAddrPerV2Msg; omega) hwf
  · intro msg hlen
    unfold MsgAddrV2.BtcEncode
    rw [if_neg (by omega)]
    simp only [hlen, MaxAddrPerV2Msg]
    rw [if_pos (by omega)]
  · intro msg hlen
    unfold MsgAddrV2.BtcEncode
    rw [if_neg (by omega)]
    simp only [hlen, MaxAddrPerV2Msg]
    simp
  · intro n rest hgt hlt
    unfold MsgAddrV2.BtcDecode
    rw [if_neg (by omega), readVarInt_putVarInt _ hlt, rbind_ok,
      if_neg (by omega), if_pos (by unfold MaxAddrPerV2Msg; omega)]
  · intro rest
    unfold MsgAddrV2.BtcDecode
    rw [if_neg (by omega), readVarInt_putVarInt _ (by norm_num), rbind_ok,
      if_pos rfl]

/-- C2 witness: the bounds at the addrv2 version itself, with the
1000-entry list made of copies of the IPv4 test address. -/
theorem addrv2_count_bounds_witness :
    (∃ bs,
      MsgAddrV2.BtcEncode AddrV2Version ⟨List.replicate 1000 sampleNA⟩ = .ok bs ∧
      MsgAddrV2.BtcDecode AddrV2Version bs =
        .ok (⟨List.replicate 1000 sampleNA⟩, [])) ∧
    MsgAddrV2.BtcEncode AddrV2Version ⟨List.replicate 1001 sampleNA⟩ =
      .error .tooManyAddrs ∧
    MsgAddrV2.BtcEncode AddrV2Version ⟨[]⟩ = .error .tooFewAddrs ∧
    MsgAddrV2.BtcDecode AddrV2Version (putVarInt 1001 ++ []) =
      .error .tooManyAddrs ∧
    MsgAddrV2.BtcDecode AddrV2Version (putVarInt 0 ++ []) =
      .error .tooFewAddrs := by
  obtain ⟨h1, h2, h3, h4, h5⟩ := addrv2_count_bounds AddrV2Version (le_refl _)
  exact ⟨h1 _ (by simp) (fun na hna => by rw [List.eq_of_mem_replicate hna]; decide),
    h2 _ (by simp), h3 _ rfl, h4 1001 [] (by decide) (by decide), h5 []⟩

/-- C3: below its minimum protocol version, every message kind's decode
fails with the version-mismatch error for EVERY input byte stream (so the
result does not depend on the reader and no bytes are consumed), and its
encode fails with the same error for every message value (so nothing is
written). -/
theorem version_gating (pver : Nat) :
    (pver < AddrV2Version →
      (∀ bs, MsgAddrV2.BtcDecode pver bs = .error .msgInvalidForPVer) ∧
      (∀ m, MsgAddrV2.BtcEncode pver m = .error .msgInvalidForPVer)) ∧
    (pver < MixVersion →
      (∀ bs, MsgMixPR.BtcDecode pver bs = .error .msgInvalidForPVer) ∧
      (∀ m, MsgMixPR.BtcEncode pver m = .error .msgInvalidForPVer) ∧
      (∀ bs, MsgMixKE.BtcDecode pver bs = .error .msgInvalidForPVer) ∧
      (∀ m, MsgMixKE.BtcEncode pver m = .error .msgInvalidForPVer) ∧
      (∀ bs, MsgMixCT.BtcDecode pver bs = .error .msgInvalidForPVer) ∧
      (∀ m, MsgMixCT.BtcEncode pver m = .error .msgInvalidForPVer) ∧
      (∀ bs, MsgMixSR.BtcDecode pver bs = .error .msgInvalidForPVer) ∧
      (∀ m, MsgMixSR.BtcEncode pver m = .error .msgInvalidForPVer) ∧
      (∀ bs, MsgMixDC.BtcDecode pver bs = .error .msgInvalidForPVer) ∧
      (∀ m, MsgMixDC.BtcEncode pver m = .error .msgInvalidForPVer) ∧
      (∀ bs, MsgMixCM.BtcDecode pver bs = .error .msgInvalidForPVer) ∧
      (∀ m, MsgMixCM.BtcEncode pver m = .error .msgInvalidForPVer)) := by
  refine ⟨fun h => ⟨fun bs => by simp [MsgAddrV2.BtcDecode, h],
    fun m => by simp [MsgAddrV2.BtcEncode, h]⟩, fun h =>
    ⟨fun bs => by simp [MsgMixPR.BtcDecode, h],
     fun m => by simp [MsgMixPR.BtcEncode, h],
     fun bs => by simp [MsgMixKE.BtcDecode, h],
     fun m => by simp [MsgMixKE.BtcEncode, h],
     fun bs => by simp [MsgMixCT.BtcDecode, h],
     fun m => by simp [MsgMixCT.BtcEncode, h],
     fun bs => by simp [MsgMixSR.BtcDecode, h],
     fun m => by simp [MsgMixSR.BtcEncode, h],
     fun bs => by simp [MsgMixDC.BtcDecode, h],
     fun m => by simp [MsgMixDC.BtcEncode, h],
     fun bs => by simp [MsgMixCM.BtcDecode, h],
     fun m => by simp [MsgMixCM.BtcEncode, h]⟩⟩

/-- C3 witness: the gating at protocol version 0 on the empty input and on
zero-valued messages of every kind. -/
theorem version_gating_witness :
    MsgAddrV2.BtcDecode 0 [] = .error .msgInvalidForPVer ∧
    MsgAddrV2.BtcEncode 0 ⟨[]⟩ = .error .msgInvalidForPVer ∧
    MsgMixPR.BtcDecode 0 [] = .error .msgInvalidForPVer ∧
    MsgMixPR.BtcEncode 0 ⟨[], [], 0, [], 0, 0, 0, 0, [], ⟨0, 0, []⟩⟩ =
      .error .msgInvalidForPVer ∧
    MsgMixKE.BtcDecode 0 [] = .error .msgInvalidForPVer ∧
    MsgMixKE.BtcEncode 0 ⟨[], [], [], [], 0, [], []⟩ = .error .msgInvalidForPVer ∧
    MsgMixCT.BtcDecode 0 [] = .error .msgInvalidForPVer ∧
    MsgMixCT.BtcEncode 0 ⟨[], []⟩ = .error .msgInvalidForPVer ∧
    MsgMixSR.BtcDecode 0 [] = .error .msgInvalidForPVer ∧
    MsgMixSR.BtcEncode 0 ⟨[], 0, []⟩ = .error .msgInvalidForPVer ∧
    MsgMixDC.BtcDecode 0 [] = .error .msgInvalidForPVer ∧
    MsgMixDC.BtcEncode 0 ⟨[], 0, [], false⟩ = .error .msgInvalidForPVer ∧
    MsgMixCM.BtcDecode 0 [] = .error .msgInvalidForPVer ∧
    MsgMixCM.BtcEncode 0 ⟨[], false, []⟩ = .error .msgInvalidForPVer := by
  obtain ⟨hA, hM⟩ := version_gating 0
  obtain ⟨hA1, hA2⟩ := hA (by decide)
  obtain ⟨h1, h2, h3, h4, h5, h6, h7, h8, h9, h10, h11, h12⟩ := hM (by decide)
  exact ⟨hA1 [], hA2 _, h1 [], h2 _, h3 [], h4 _, h5 [], h6 _, h7 [], h8 _,
    h9 [], h10 _, h11 [], h12 _⟩

/-- C5 counterexample: fe80::1 (in RFC4862, FE80::/64) is not routable in
the source, yet it satisfies none of the conditions the claim lists as
the only causes of non-routability — so the claim's "if and only if"
fails at this address. -/
theorem isroutable_claim_counterexample :
    IsRoutable (Addr.v6 [0xfe, 0x80, 0, 0, 0, 0, 0, 0, 0, 0, 0, 0, 0, 0, 0, 1]) =
      false ∧
    claimNonRoutable
        (Addr.v6 [0xfe, 0x80, 0, 0, 0, 0, 0, 0, 0, 0, 0, 0, 0, 0, 0, 1]) =
      false := by
  decide

/-- C5 witness: the amended equivalence applied to the routable address
8.8.8.8. -/
theorem isroutable_iff_amended_witness :
    (Addr.v4 8 8 8 8).wf ∧
    (IsRoutable (Addr.v4 8 8 8 8) = false ↔
      claimNonRoutableAmended (Addr.v4 8 8 8 8) = true) :=
  ⟨by decide, isroutable_iff_amended (Addr.v4 8 8 8 8) (by decide)⟩

/-- C6 counterexample: at the addrv2 version, which is below the Tor-v3
threshold, the per-record bound is not 32 (it is 35 = 8+8+1+16+2). -/
theorem max_payload_counterexample :
    AddrV2Version < RelayTORv3Version ∧
    maxNetAddressPayloadV2 AddrV2Version ≠ 32 := by decide

/-- C6 (amended): the per-record bound is 35 bytes below the Tor-v3
threshold and 51 bytes at or above it, and the message-level maximum
payload is the compact-size width of 1000 (3 bytes) plus 1000 times the
per-record bound (0 below the addrv2 version). -/
theorem max_payload_values (pver : Nat) :
    maxNetAddressPayloadV2 pver =
      (if pver < RelayTORv3Version then 35 else 51) ∧
    MsgAddrV2.MaxPayloadLength pver =
      (if pver < AddrV2Version then 0
       else 3 + 1000 * maxNetAddressPayloadV2 pver) := by
  refine ⟨?_, ?_⟩
  · unfold maxNetAddressPayloadV2
    split <;> rfl
  · unfold MsgAddrV2.MaxPayloadLength VarIntSerializeSize MaxAddrPerV2Msg
    split <;> rfl

/-- C7: the concrete serialization vector: an IPv4 record with timestamp
0x495FAB29, services 1, address 127.0.0.1 and port 9108 encodes to
exactly the 23 bytes 29 ab 5f 49 00 00 00 00 01 00 00 00 00 00 00 00 01
7f 00 00 01 94 23, at every protocol version. -/
theorem write_ipv4_netaddress_vector (pver : Nat) :
    writeNetAddressV2 pver ⟨1, [0x7f, 0, 0, 1], 9108, 0x495fab29, 1⟩ =
      .ok [0x29, 0xab, 0x5f, 0x49, 0x00, 0x00, 0x00, 0x00,
           0x01, 0x00, 0x00, 0x00, 0x00, 0x00, 0x00, 0x00,
           0x01,
           0x7f, 0x00, 0x00, 0x01,
           0x94, 0x23] := rfl

/-- C8: the group key of 127.0.0.1 is "local"; the group key of 8.8.8.8 is
"8.8.0.0" (its /16 network); the group key of every address in 10.0.0.0/8
is "unroutable".  (`GroupKey` is a pure function of the address, so
determinism is inherent in the model.) -/
theorem groupkey_values :
    GroupKey (Addr.v4 127 0 0 1) = "local" ∧
    GroupKey (Addr.v4 8 8 8 8) = "8.8.0.0" ∧
    ∀ b c d : Nat, GroupKey (Addr.v4 10 b c d) = "unroutable" := by
  refine ⟨by decide, by decide, fun b c d => rfl⟩

/-- C9 (amended): the record encoder equals, for every version and record,
the encoder described by the amended claim: IPv4 zero-pads or truncates to
4 bytes; IPv6 writes a 16-byte slice as-is, a 4-byte slice in IPv4-mapped
form, anything else as 16 zero bytes; TorV3 (at or above the threshold)
writes a 32-byte slice as-is and anything else as 32 zero bytes; width
violations never cause an error. -/
theorem write_netaddress_field_amended (pver : Nat) (na : NetAddressV2) :
    writeNetAddressV2 pver na = writeNetAddressV2Amended pver na := by
  unfold writeNetAddressV2 writeNetAddressV2Amended
  by_cases h1 : na.addrType = 1
  · simp [h1, List.append_assoc]
  · by_cases h2 : na.addrType = 2
    · simp [h1, h2, List.append_assoc]
    · by_cases h3 : na.addrType = 3 ∧ RelayTORv3Version ≤ pver
      · simp [h1, h2, h3, List.append_assoc]
      · simp [h1, h2, h3]

/-- C9 counterexample: an IPv6-kind record holding a 4-byte slice encodes
its address field as the IPv4-mapped IPv6 form (10 zero bytes, ff ff,
then the 4 bytes), which differs from the zero-padded field the claim
describes. -/
theorem write_netaddress_ipv6_pad_counterexample :
    (((writeNetAddressV2 0 ⟨2, [1, 2, 3, 4], 0, 0, 0⟩).toOption.getD []).drop 17).take 16 =
      [0, 0, 0, 0, 0, 0, 0, 0, 0, 0, 255, 255, 1, 2, 3, 4] ∧
    (((writeNetAddressV2 0 ⟨2, [1, 2, 3, 4], 0, 0, 0⟩).toOption.getD []).drop 17).take 16 ≠
      claimAddrFieldBytes 2 [1, 2, 3, 4] := by
  decide

end Dcrd
